import Mathlib

/-!
Verification development for the `realip` Go library (`realip.go`).

The library has two components:

* `isPrivateAddress : string -> (bool, error)` — parses an address string
  with Go's `net.ParseIP` and tests it against a fixed table of reserved
  CIDR blocks built by `init` with `net.ParseCIDR`;
* `FromRequest : *http.Request -> string` — resolves the "real" client IP
  from the `X-Real-IP`, `X-Forwarded-For` and `Forwarded` headers, falling
  back to the transport remote address (stripped with `net.SplitHostPort`).

The embedding below models strings as `List Char` internally (`String` at
the API boundary, mirroring the Go signatures), machine integers as `Nat`
with explicit `% 2 ^ w` / `/ 2 ^ w` arithmetic, and Go's `(value, error)`
returns as products with a Boolean error flag or as `Option`.  The relevant
parts of Go's standard `net` package (`ParseIP`, `ParseCIDR`,
`IPNet.Contains`, `SplitHostPort`) are embedded faithfully from their
sources, since the library's behaviour is defined in terms of them.
-/

namespace RealIP

/-! ## Basic string utilities (Go `strings` package) -/

/-- Go `unicode.IsSpace`: the White_Space code points recognised by
`strings.TrimSpace` (space, the control codes TAB through CR, NEL, NBSP,
and the Unicode space separators). -/
def goIsSpace (c : Char) : Bool :=
  decide (c.toNat ∈ [0x20, 0x09, 0x0A, 0x0B, 0x0C, 0x0D, 0x85, 0xA0, 0x1680,
    0x2028, 0x2029, 0x202F, 0x205F, 0x3000]) ||
  decide (0x2000 ≤ c.toNat ∧ c.toNat ≤ 0x200A)

/-- Go `strings.TrimSpace`: drop leading and trailing white space. -/
def trimSpace (s : List Char) : List Char :=
  ((s.dropWhile goIsSpace).reverse.dropWhile goIsSpace).reverse

/-- Go `strings.Split` with a one-character separator: split at every
occurrence of `sep`; the result always has one more entry than there are
separators (`Split("", sep) = [""]`). -/
def splitOnChar (sep : Char) : List Char → List (List Char)
  | [] => [[]]
  | c :: cs =>
    match splitOnChar sep cs with
    | [] => [[]]
    | h :: t => if c == sep then [] :: h :: t else (c :: h) :: t

/-- Split a string at the first occurrence of `c` (Go `byteIndex`):
`some (before, after)` when `c` occurs, `none` otherwise. -/
def splitAtFirstChar (c : Char) : List Char → Option (List Char × List Char)
  | [] => none
  | x :: xs =>
    if x == c then some ([], xs)
    else (splitAtFirstChar c xs).map (fun p => (x :: p.1, p.2))

/-- Split a string at the last occurrence of `c` (Go `byteLastIndex`):
`some (before, after)` when `c` occurs, `none` otherwise. -/
def splitAtLastChar (c : Char) : List Char → Option (List Char × List Char)
  | [] => none
  | x :: xs =>
    match splitAtLastChar c xs with
    | some p => some (x :: p.1, p.2)
    | none => if x == c then some ([], xs) else none

/-- Go `strings.Contains(b, "for")`, specialised to the fixed needle used by
`FromRequest`. -/
def hasForSubstr : List Char → Bool
  | 'f' :: 'o' :: 'r' :: _ => true
  | _ :: rest => hasForSubstr rest
  | [] => false

/-- Go `strings.TrimLeft(s, "\x22[")`: drop every leading `"` or `[`. -/
def trimLeftQuoteBracket (s : List Char) : List Char :=
  s.dropWhile (fun c => c == '"' || c == '[')

/-- Go `strings.TrimRight(s, "]\x22")`: drop every trailing `]` or `"`. -/
def trimRightQuoteBracket (s : List Char) : List Char :=
  (s.reverse.dropWhile (fun c => c == ']' || c == '"')).reverse

/-! ## Go `net.ParseIP`

`net.ParseIP` returns a 16-byte address (IPv4 addresses come back in their
IPv4-mapped-IPv6 form `::ffff:a.b.c.d`), or `nil` on failure.  We model the
16-byte value as a `Nat` below `2 ^ 128`. -/

/-- Hexadecimal digit value of a character, `none` for non-hex characters
(code points 48-57 are `0`-`9`, 97-102 are `a`-`f`, 65-70 are `A`-`F`). -/
def hexDigitVal (c : Char) : Option Nat :=
  if 48 ≤ c.toNat && c.toNat ≤ 57 then some (c.toNat - 48)
  else if 97 ≤ c.toNat && c.toNat ≤ 102 then some (c.toNat - 87)
  else if 65 ≤ c.toNat && c.toNat ≤ 70 then some (c.toNat - 55)
  else none

/-- One field of a dotted-decimal IPv4 literal (Go `parseIPv4Fields`): at
least one digit, no leading zero, value at most 255. -/
def parseV4Field (f : List Char) : Option Nat :=
  if f.isEmpty then none
  else if !(f.all Char.isDigit) then none
  else if decide (f.length > 1) && (f.head? == some '0') then none
  else
    let v := f.foldl (fun a c => a * 10 + (c.toNat - 48)) 0
    if v ≤ 255 then some v else none

/-- Go IPv4 parsing (`parseIPv4Fields`): exactly four fields separated by
dots.  Result is the 32-bit address value. -/
def parseIPv4 (s : List Char) : Option Nat :=
  match (splitOnChar '.' s).mapM parseV4Field with
  | some [a, b, c, d] => some (((a * 256 + b) * 256 + c) * 256 + d)
  | _ => none

/-- Scan a maximal run of leading hex digits, accumulating the value
(Go's inner digit loop in `parseIPv6`): returns the value, the number of
digits consumed, and the rest of the string. -/
def hexRunAux : List Char → Nat → Nat → Nat × Nat × List Char
  | [], acc, k => (acc, k, [])
  | c :: cs, acc, k =>
    match hexDigitVal c with
    | some d => hexRunAux cs (acc * 16 + d) (k + 1)
    | none => (acc, k, c :: cs)

/-- The field loop of Go `parseIPv6`.  `bytes` is the list of address bytes
produced so far (Go's `ip[:i]`), `ell` the byte position of a `::` already
seen.  Returns the bytes, the `::` position, and the unconsumed rest of the
string; `none` is a parse error.  `fuel` only bounds the recursion; each
iteration consumes input, so `fuel` larger than the group count never runs
out for real inputs. -/
def parseV6Loop : Nat → List Char → List Nat → Option Nat →
    Option (List Nat × Option Nat × List Char)
  | 0, _, _, _ => none
  | fuelLeft + 1, s, bytes, ell =>
    if bytes.length ≥ 16 then some (bytes, ell, s)
    else
      match hexRunAux s 0 0 with
      | (v, k, rest) =>
        if k == 0 then none
        else if v > 0xffff then none
        else
          match rest with
          | '.' :: _ =>
            -- Go: an embedded IPv4 must occupy the final two 16-bit fields.
            if ell == none && decide (bytes.length ≠ 12) then none
            else if bytes.length + 4 > 16 then none
            else
              match parseIPv4 s with
              | some v4 =>
                some (bytes ++ [v4 / 2 ^ 24, v4 / 2 ^ 16 % 256,
                                v4 / 2 ^ 8 % 256, v4 % 256], ell, [])
              | none => none
          | _ =>
            let bytes2 := bytes ++ [v / 256, v % 256]
            match rest with
            | [] => some (bytes2, ell, [])
            | ':' :: [] => none
            | ':' :: ':' :: rest2 =>
              if ell.isSome then none
              else
                match rest2 with
                | [] => some (bytes2, some bytes2.length, [])
                | _ => parseV6Loop fuelLeft rest2 bytes2 (some bytes2.length)
            | ':' :: rest2 => parseV6Loop fuelLeft rest2 bytes2 ell
            | _ => none

/-- Big-endian byte list to `Nat`. -/
def bytesToNat (bytes : List Nat) : Nat :=
  bytes.foldl (fun a b => a * 256 + b) 0

/-- Go `parseIPv6` as used through `net.ParseIP`: result is the 128-bit
address value.  `net.ParseIP` rejects any address carrying a `%zone`, so a
`%` anywhere makes the parse fail. -/
def parseIPv6 (s0 : List Char) : Option Nat :=
  if '%' ∈ s0 then none
  else
    match s0 with
    | ':' :: ':' :: rest =>
      if rest.isEmpty then some 0
      else parseIPv6Tail rest (some 0)
    | _ => parseIPv6Tail s0 none
where
  /-- Run the field loop and apply Go's post-loop checks and `::`
  expansion. -/
  parseIPv6Tail (s1 : List Char) (ell0 : Option Nat) : Option Nat :=
    match parseV6Loop 20 s1 [] ell0 with
    | none => none
    | some (bytes, ell, rem) =>
      if !rem.isEmpty then none
      else if bytes.length < 16 then
        match ell with
        | none => none
        | some e =>
          some (bytesToNat
            (bytes.take e ++ List.replicate (16 - bytes.length) 0 ++ bytes.drop e))
      else if ell.isSome then none
      else some (bytesToNat bytes)

/-- Go `net.ParseIP`: the first of `.`, `:`, `%` decides the address family
(or rejects).  The result is the 16-byte (`As16`) value as a `Nat`; IPv4
results live at `::ffff:a.b.c.d`. -/
def parseIP (s : List Char) : Option Nat :=
  match s.find? (fun c => c == '.' || c == ':' || c == '%') with
  | some '.' => (parseIPv4 s).map (fun v => 0xffff * 2 ^ 32 + v)
  | some ':' => parseIPv6 s
  | _ => none

/-- Go `IP.To4` on a 16-byte address value: `some` of the 32-bit value for
IPv4-mapped addresses (`::ffff:a.b.c.d`), `none` otherwise. -/
def ipTo4 (n : Nat) : Option Nat :=
  if n / 2 ^ 32 == 0xffff then some (n % 2 ^ 32) else none

/-! ## Go `net.ParseCIDR`, the reserved-block table, and the classifier -/

/-- A parsed CIDR block as stored by `net.ParseCIDR`: the address family
width in bits (32 or 128), the masked network value, and the mask length. -/
structure Cidr where
  bits : Nat
  net : Nat
  len : Nat
deriving DecidableEq

/-- Go `dtoi` applied to the whole mask string in `net.ParseCIDR`: decimal
digits only, non-empty, value below Go's `big` cutoff `0xFFFFFF`. -/
def parseDecimal (s : List Char) : Option Nat :=
  if s.isEmpty then none
  else if !(s.all Char.isDigit) then none
  else
    let v := s.foldl (fun a c => a * 10 + (c.toNat - 48)) 0
    if v < 0xFFFFFF then some v else none

/-- Go `net.ParseCIDR`: split at the first `/`; parse the address part as
IPv4 and otherwise as IPv6; parse the mask length; the stored network is
the address masked to `len` bits (Go `ip.Mask(m)`). -/
def parseCIDR (s : List Char) : Option Cidr :=
  match splitAtFirstChar '/' s with
  | none => none
  | some (addr, maskStr) =>
    match parseIPv4 addr with
    | some v4 =>
      match parseDecimal maskStr with
      | some n =>
        if n ≤ 32 then some ⟨32, v4 / 2 ^ (32 - n) * 2 ^ (32 - n), n⟩ else none
      | none => none
    | none =>
      match parseIPv6 addr with
      | some v6 =>
        match parseDecimal maskStr with
        | some n =>
          if n ≤ 128 then some ⟨128, v6 / 2 ^ (128 - n) * 2 ^ (128 - n), n⟩
          else none
        | none => none
      | none => none

/-- The fixed literal list built by the library's `init` function. -/
def maxCidrBlocks : List String :=
  ["127.0.0.1/8",    -- localhost
   "10.0.0.0/8",     -- 24-bit block
   "172.16.0.0/12",  -- 20-bit block
   "192.168.0.0/16", -- 16-bit block
   "169.254.0.0/16", -- link local address
   "::1/128",        -- localhost IPv6
   "fc00::/7",       -- unique local address IPv6
   "fe80::/10"]      -- link local address IPv6

/-- The package-level `cidrs` table: each literal parsed by
`net.ParseCIDR` (all eight parse successfully; `init` ignores the error). -/
def cidrs : List Cidr :=
  maxCidrBlocks.filterMap (fun s => parseCIDR s.toList)

/-- Go `(*IPNet).Contains`: normalise the candidate with `To4`, require the
same family width, and compare the masked values (the stored network is
already masked, so masked equality is equality of the top `len` bits). -/
def cidrContains (c : Cidr) (ip : Nat) : Bool :=
  match ipTo4 ip with
  | some v4 => c.bits == 32 && (v4 / 2 ^ (32 - c.len) == c.net / 2 ^ (32 - c.len))
  | none => c.bits == 128 && (ip / 2 ^ (128 - c.len) == c.net / 2 ^ (128 - c.len))

/-- The `for i := range cidrs` loop of `isPrivateAddress`: return `true` at
the first containing block, `false` when no block contains the address. -/
def scanCidrs : List Cidr → Nat → Bool
  | [], _ => false
  | c :: rest, ip => if cidrContains c ip then true else scanCidrs rest ip

/-- `isPrivateAddress` on the internal character-list representation.  The
second component models the `error` result (`true` iff the error is
non-nil, which happens exactly when `net.ParseIP` returns `nil`). -/
def isPrivateAddressL (address : List Char) : Bool × Bool :=
  match parseIP address with
  | none => (false, true)
  | some ip => (scanCidrs cidrs ip, false)

/-- `isPrivateAddress(address string) (bool, error)` of `realip.go`. -/
def isPrivateAddress (address : String) : Bool × Bool :=
  isPrivateAddressL address.toList

/-! ## Go `net.SplitHostPort`

`SplitHostPort` takes the port to start after the last colon.  For a
`hostport` beginning with `[`, the first `]` must be immediately followed
by that last colon and the host is the bracket contents; otherwise the part
before the last colon must itself be colon-free.  Stray `[`/`]` characters
are rejected.  On any error Go returns empty host and port. -/

/-- Go `net.SplitHostPort`: `some (host, port)` on success, `none` on any
of Go's error returns (missing port, too many colons, stray brackets). -/
def splitHostPort (s : List Char) : Option (List Char × List Char) :=
  match splitAtLastChar ':' s with
  | none => none  -- Go: missing port in address
  | some (beforeColon, afterColon) =>
    if s.head? == some '[' then
      match splitAtFirstChar ']' s with
      | none => none  -- Go: missing ']' in address
      | some (beforeBracket, afterBracket) =>
        -- Go `end+1 == len(hostport)`: nothing after the ']'.
        if afterBracket.isEmpty then none
        -- Go `end+1 == i`: the ']' is immediately followed by the last colon.
        else if afterBracket == ':' :: afterColon then
          let host := beforeBracket.drop 1  -- Go: hostport[1:end]
          if '[' ∈ s.drop 1 then none
          else if ']' ∈ afterBracket then none
          else some (host, afterColon)
        else none  -- Go: too many colons / missing port
    else
      let host := beforeColon  -- Go: hostport[:i]
      if ':' ∈ host then none  -- Go: too many colons in address
      else if '[' ∈ s then none
      else if ']' ∈ s then none
      else some (host, afterColon)

/-! ## The resolver `FromRequest` -/

/-- The header values and transport address `FromRequest` reads from the
request: `xRealIP = r.Header.Get("X-Real-IP")` (first value or empty),
`xForwardedFor = r.Header["X-Forwarded-For"]` (all values),
`forwarded = r.Header.Get("Forwarded")`, and `remoteAddr = r.RemoteAddr`. -/
structure Request where
  xRealIP : String
  xForwardedFor : List String
  forwarded : String
  remoteAddr : String

/-- The candidate test of both scan loops:
`isPrivate, err := isPrivateAddress(address); !isPrivate && err == nil`. -/
def isPublic (address : List Char) : Bool :=
  !(isPrivateAddressL address).1 && !(isPrivateAddressL address).2

/-- The token list scanned by the `X-Forwarded-For` loops: each header
value split on commas, each piece whitespace-trimmed, in header order then
left to right. -/
def xffTokens (xForwardedFor : List (List Char)) : List (List Char) :=
  xForwardedFor.flatMap (fun a => (splitOnChar ',' a).map trimSpace)

/-- The nested `X-Forwarded-For` loops: return the first token that is
public (parses and is in no reserved block). -/
def firstPublicToken (tokens : List (List Char)) : Option (List Char) :=
  tokens.find? isPublic

/-- The body of the `Forwarded` loop for one comma/semicolon piece `b`:
require the substring `for`, split on `=` into exactly two parts, trim the
second part (`TrimSpace`, then `TrimLeft` with cutset `"[`, then
`TrimRight` with cutset `]"`), and yield it when it is public. -/
def forwardedPiece (b : List Char) : Option (List Char) :=
  if hasForSubstr b then
    match splitOnChar '=' b with
    | [_, c1] =>
      let address := trimRightQuoteBracket (trimLeftQuoteBracket (trimSpace c1))
      if isPublic address then some address else none
    | _ => none
  else none

/-- The `Forwarded` header scan: split on `;`, then on `,`, and return the
first piece whose `for=` value is public. -/
def forwardedScan (forwarded : List Char) : Option (List Char) :=
  (((splitOnChar ';' forwarded).flatMap (fun a => splitOnChar ',' a))).findSome?
    forwardedPiece

/-- The remote-address fallback of `FromRequest`: when the remote address
contains a colon, take `net.SplitHostPort`'s host (the error is discarded,
so a failed split leaves the empty string); otherwise the address as is. -/
def remoteFallback (remoteAddr : List Char) : List Char :=
  if ':' ∈ remoteAddr then
    match splitHostPort remoteAddr with
    | some p => p.1
    | none => []
  else remoteAddr

/-- `FromRequest(r *http.Request) string` of `realip.go`: the all-empty
fallback to the remote address, then the `X-Forwarded-For` scan, then the
`Forwarded` scan, then `X-Real-IP` verbatim. -/
def FromRequest (r : Request) : String :=
  if r.xRealIP = "" ∧ r.xForwardedFor = [] ∧ r.forwarded = "" then
    String.mk (remoteFallback r.remoteAddr.toList)
  else
    match firstPublicToken (xffTokens (r.xForwardedFor.map String.toList)) with
    | some a => String.mk a
    | none =>
      match forwardedScan r.forwarded.toList with
      | some a => String.mk a
      | none => r.xRealIP

/-! ## Specification-side definitions

These follow the words of the specification / claims rather than the
source, for comparison with the definitions above. -/

/-- Membership in the reserved prefixes exactly as the specification lists
them: `127.0.0.0/8`, `10.0.0.0/8`, `172.16.0.0/12`, `192.168.0.0/16`,
`169.254.0.0/16` for the IPv4 family (after `To4` normalisation) and
`::1/128`, `fc00::/7`, `fe80::/10` for IPv6. -/
def inReservedBlocks (ip : Nat) : Bool :=
  match ipTo4 ip with
  | some v =>
    v / 2 ^ 24 == 127 || v / 2 ^ 24 == 10 || v / 2 ^ 20 == 0xAC1 ||
    v / 2 ^ 16 == 0xC0A8 || v / 2 ^ 16 == 0xA9FE
  | none =>
    ip == 1 || ip / 2 ^ 121 == 0x7E || ip / 2 ^ 118 == 0x3FA

/-- Modelled from the words of claim C3: strip exactly one leading
character when it is `"` or `[`. -/
def stripOneLeft (s : List Char) : List Char :=
  match s with
  | c :: rest => if c == '"' || c == '[' then rest else s
  | [] => []

/-- Modelled from the words of claim C3: strip exactly one trailing
character when it is `]` or `"`. -/
def stripOneRight (s : List Char) : List Char :=
  match s.reverse with
  | c :: rest => if c == ']' || c == '"' then rest.reverse else s
  | [] => []

/-- The `Forwarded` scan exactly as claim C3 words it: split on `;` then
`,`; for each piece containing `for` that splits on `=` into exactly two
parts, take the second part, strip exactly one layer of leading `"` or `[`
and one layer of trailing `]` or `"` (no whitespace trimming), classify,
and return the first public result. -/
def forwardedScanClaim (forwarded : List Char) : Option (List Char) :=
  (((splitOnChar ';' forwarded).flatMap (fun a => splitOnChar ',' a))).findSome?
    (fun b =>
      if hasForSubstr b then
        match splitOnChar '=' b with
        | [_, c1] =>
          let address := stripOneRight (stripOneLeft c1)
          if isPublic address then some address else none
        | _ => none
      else none)

/-! ## Helper lemmas -/

/-- The `cidrs` table evaluates to the eight parsed reserved blocks (Go's
`init` masks `127.0.0.1/8` down to the `127.0.0.0` network). -/
theorem cidrs_eval :
    cidrs = [⟨32, 0x7F000000, 8⟩, ⟨32, 0x0A000000, 8⟩, ⟨32, 0xAC100000, 12⟩,
             ⟨32, 0xC0A80000, 16⟩, ⟨32, 0xA9FE0000, 16⟩, ⟨128, 1, 128⟩,
             ⟨128, 0xfc00 * 2 ^ 112, 7⟩, ⟨128, 0xfe80 * 2 ^ 112, 10⟩] := by
  decide

/-- The early-return loop of `isPrivateAddress` computes `List.any`
membership over the block table. -/
theorem scanCidrs_eq_any (l : List Cidr) (ip : Nat) :
    scanCidrs l ip = l.any (fun c => cidrContains c ip) := by
  induction l with
  | nil => rfl
  | cons c rest ih =>
    simp only [scanCidrs, List.any_cons, ih]
    cases cidrContains c ip <;> simp

/-- Membership in the parsed block table agrees with the specification's
reserved-prefix list for every 16-byte address value. -/
theorem scanCidrs_cidrs_eq (ip : Nat) :
    scanCidrs cidrs ip = inReservedBlocks ip := by
  rw [scanCidrs_eq_any, cidrs_eval]
  unfold inReservedBlocks
  cases h : ipTo4 ip with
  | none => simp [cidrContains, h, Bool.or_assoc]
  | some v => simp [cidrContains, h, Bool.or_assoc]

/-- A character that occurs nowhere in a string has no last occurrence. -/
theorem splitAtLastChar_not_mem (c : Char) (p : List Char) (hp : c ∉ p) :
    splitAtLastChar c p = none := by
  induction p with
  | nil => rfl
  | cons x xs ih =>
    simp only [List.mem_cons, not_or] at hp
    have hx : (x == c) = false := by
      simp only [beq_eq_false_iff_ne, ne_eq]
      exact fun hxc => hp.1 hxc.symm
    simp only [splitAtLastChar, ih hp.2, hx]
    simp

/-- Splitting at the last occurrence of `c`, when `c` occurs nowhere after
the exhibited occurrence, splits exactly there. -/
theorem splitAtLastChar_append (c : Char) (h p : List Char) (hp : c ∉ p) :
    splitAtLastChar c (h ++ c :: p) = some (h, p) := by
  induction h with
  | nil =>
    simp only [List.nil_append, splitAtLastChar, splitAtLastChar_not_mem c p hp]
    simp
  | cons x xs ih =>
    simp only [List.cons_append, splitAtLastChar]
    rw [show xs.append (c :: p) = xs ++ c :: p from rfl, ih]

/-- `net.SplitHostPort` on a well-formed unbracketed `host:port` (no colon
in either part, no brackets anywhere) returns the two parts. -/
theorem splitHostPort_wellformed (h p : List Char)
    (hch : ':' ∉ h) (hcp : ':' ∉ p) (hbh : '[' ∉ h) (hbp : '[' ∉ p)
    (hrh : ']' ∉ h) (hrp : ']' ∉ p) :
    splitHostPort (h ++ ':' :: p) = some (h, p) := by
  have hb : '[' ∉ h ++ ':' :: p := by
    simp only [List.mem_append, List.mem_cons, not_or]
    exact ⟨hbh, by decide, hbp⟩
  have hr : ']' ∉ h ++ ':' :: p := by
    simp only [List.mem_append, List.mem_cons, not_or]
    exact ⟨hrh, by decide, hrp⟩
  have hhead : ((h ++ ':' :: p).head? == some '[') = false := by
    cases h with
    | nil => simp
    | cons x xs =>
      simp only [List.cons_append, List.head?_cons, beq_eq_false_iff_ne, ne_eq,
        Option.some.injEq]
      exact fun hx => hbh (hx ▸ List.mem_cons_self x xs)
  unfold splitHostPort
  simp only [splitAtLastChar_append _ _ _ hcp, hhead, Bool.false_eq_true,
    if_false, if_neg hch, if_neg hb, if_neg hr]

/-- The candidate test rejects the empty string (it does not parse). -/
theorem isPublic_ne_nil (t : List Char) (h : isPublic t = true) : t ≠ [] := by
  intro he
  subst he
  exact absurd h (by decide)

/-- A token returned by the `X-Forwarded-For` scan is never empty. -/
theorem firstPublicToken_ne_nil (l : List (List Char)) (t : List Char)
    (h : firstPublicToken l = some t) : t ≠ [] :=
  isPublic_ne_nil t (List.find?_some h)

/-- An address returned by one `Forwarded` piece satisfies the public
test. -/
theorem forwardedPiece_isPublic (b a : List Char) (h : forwardedPiece b = some a) :
    isPublic a = true := by
  simp only [forwardedPiece] at h
  split at h
  · split at h
    · split at h
      · cases h; assumption
      · cases h
    · cases h
  · cases h

/-- A successful `List.findSome?` comes from some list element. -/
theorem exists_of_findSome?_eq_some {α β : Type} {f : α → Option β} {l : List α}
    {b : β} (h : l.findSome? f = some b) : ∃ a ∈ l, f a = some b := by
  induction l with
  | nil => cases h
  | cons x xs ih =>
    rw [List.findSome?_cons] at h
    cases hx : f x with
    | some y =>
      simp only [hx] at h
      exact ⟨x, List.mem_cons_self x xs, hx.trans h⟩
    | none =>
      simp only [hx] at h
      obtain ⟨a, ha, hfa⟩ := ih h
      exact ⟨a, List.mem_cons_of_mem x ha, hfa⟩

/-- An address returned by the `Forwarded` scan is never empty. -/
theorem forwardedScan_ne_nil (f : List Char) (a : List Char)
    (h : forwardedScan f = some a) : a ≠ [] := by
  obtain ⟨b, _, hfb⟩ := exists_of_findSome?_eq_some h
  exact isPublic_ne_nil a (forwardedPiece_isPublic b a hfb)

/-- A `String.mk` equal to the empty string has the empty character
list. -/
theorem mk_eq_empty {a : List Char} (h : String.mk a = "") : a = [] :=
  congrArg String.data h

/-- A string with the empty character list is the empty string. -/
theorem toList_eq_nil {s : String} (h : s.toList = []) : s = "" := by
  cases s with
  | mk data => cases h; rfl

/-! ## The claims -/

/-- C2: every parseable address inside one of the prefixes `127.0.0.0/8`,
`10.0.0.0/8`, `172.16.0.0/12`, `192.168.0.0/16`, `169.254.0.0/16`,
`::1/128`, `fc00::/7`, `fe80::/10` classifies as reserved and every
parseable address outside all of them as non-reserved; in particular the
/12 boundary addresses `172.16.0.0` and `172.31.0.0` are reserved while
`172.15.0.0` and `172.32.0.0` are not. -/
theorem classifier_matches_reserved_blocks :
    (∀ (s : String) (ip : Nat), parseIP s.toList = some ip →
      (isPrivateAddress s).1 = inReservedBlocks ip) ∧
    (isPrivateAddress "172.16.0.0").1 = true ∧
    (isPrivateAddress "172.31.0.0").1 = true ∧
    (isPrivateAddress "172.15.0.0").1 = false ∧
    (isPrivateAddress "172.32.0.0").1 = false := by
  refine ⟨?_, by decide, by decide, by decide, by decide⟩
  intro s ip h
  unfold isPrivateAddress isPrivateAddressL
  rw [h]
  exact scanCidrs_cidrs_eq ip

/-- Witness for C2 at the concrete address `10.0.0.0` (parsed value
`::ffff:10.0.0.0`). -/
theorem classifier_matches_reserved_blocks_witness :
    parseIP "10.0.0.0".toList = some 0xFFFF0A000000 ∧
    (isPrivateAddress "10.0.0.0").1 = inReservedBlocks 0xFFFF0A000000 :=
  ⟨by decide, classifier_matches_reserved_blocks.1 "10.0.0.0" 0xFFFF0A000000 (by decide)⟩

/-- C6: `isPrivateAddress` returns an error together with `false` when the
string fails to parse as an IP literal; on a successful parse it returns no
error and the result of testing membership against every entry of the
reserved-block table, true at the first containing block and false when no
block contains the address. -/
theorem classifier_error_and_membership (s : String) :
    (parseIP s.toList = none → isPrivateAddress s = (false, true)) ∧
    (∀ ip : Nat, parseIP s.toList = some ip →
      isPrivateAddress s = (cidrs.any (fun c => cidrContains c ip), false)) := by
  constructor
  · intro h
    unfold isPrivateAddress isPrivateAddressL
    rw [h]
  · intro ip h
    unfold isPrivateAddress isPrivateAddressL
    rw [h]
    simp [scanCidrs_eq_any]

/-- Witness for C6 at a malformed input and at the public address
`8.8.8.8`. -/
theorem classifier_error_and_membership_witness :
    (parseIP "not-an-ip".toList = none ∧ isPrivateAddress "not-an-ip" = (false, true)) ∧
    (parseIP "8.8.8.8".toList = some 0xFFFF08080808 ∧
      isPrivateAddress "8.8.8.8" =
        (cidrs.any (fun c => cidrContains c 0xFFFF08080808), false)) :=
  ⟨⟨by decide, (classifier_error_and_membership "not-an-ip").1 (by decide)⟩,
   ⟨by decide, (classifier_error_and_membership "8.8.8.8").2 0xFFFF08080808 (by decide)⟩⟩

/-- C1: for a request whose `X-Forwarded-For` header has one or more
values, the resolver scans header occurrences in order and comma-separated
tokens left to right, whitespace-trims and classifies each token, and
returns the first token that parses successfully as an IP and classifies
as non-reserved. -/
theorem xff_scan_returns_first_public (r : Request)
    (hne : r.xForwardedFor ≠ []) (t : List Char)
    (hfind : ((r.xForwardedFor.map String.toList).flatMap
        (fun a => (splitOnChar ',' a).map trimSpace)).find?
        (fun tok => !(isPrivateAddressL tok).1 && !(isPrivateAddressL tok).2) =
        some t) :
    FromRequest r = String.mk t := by
  unfold FromRequest
  rw [if_neg (fun hc => hne hc.2.1)]
  unfold firstPublicToken xffTokens isPublic
  simp only [hfind]

/-- Witness for C1: with a private address followed by a public one in a
single header value, the public one is returned. -/
theorem xff_scan_returns_first_public_witness :
    FromRequest ⟨"", ["127.0.0.0,144.12.54.87"], "", ""⟩ = "144.12.54.87" :=
  xff_scan_returns_first_public ⟨"", ["127.0.0.0,144.12.54.87"], "", ""⟩
    (by decide) "144.12.54.87".toList (by decide)

/-- C3 counterexample: on `Forwarded: for= 1.2.3.4,for=5.6.7.8` the
pipeline exactly as the claim words it (no whitespace trim of the second
`=` part, one stripped layer) skips ` 1.2.3.4` and selects `5.6.7.8`, but
the code whitespace-trims the part and returns `1.2.3.4`. -/
theorem forwarded_scan_claim_counterexample :
    forwardedScanClaim "for= 1.2.3.4,for=5.6.7.8".toList = some "5.6.7.8".toList ∧
    FromRequest ⟨"", [], "for= 1.2.3.4,for=5.6.7.8", ""⟩ = "1.2.3.4" ∧
    ("1.2.3.4" : String) ≠ "5.6.7.8" :=
  ⟨by decide, by decide, by decide⟩

/-- C3 as amended: when the `X-Forwarded-For` scan yields no public
address and the `Forwarded` header is non-empty, the resolver splits the
header on `;` then `,`, and for each piece containing `for` that splits on
`=` into exactly two parts it takes the second part, whitespace-trims it,
strips all leading `"` or `[` characters and all trailing `]` or `"`
characters, classifies the result, and returns the first address that
parses and classifies as non-reserved (pieces that do not split into
exactly two parts are skipped). -/
theorem forwarded_scan_returns_first_public (r : Request) (a : List Char)
    (hxff : firstPublicToken (xffTokens (r.xForwardedFor.map String.toList)) = none)
    (hfwd : r.forwarded ≠ "")
    (hscan : forwardedScan r.forwarded.toList = some a) :
    FromRequest r = String.mk a := by
  unfold FromRequest
  rw [if_neg (fun hc => hfwd hc.2.2)]
  simp only [hxff, hscan]

/-- Witness for C3 as amended: the second `for=` pair holds the first
public address. -/
theorem forwarded_scan_returns_first_public_witness :
    FromRequest ⟨"", [], "for=127.0.0.0,for=144.12.54.87", ""⟩ = "144.12.54.87" :=
  forwarded_scan_returns_first_public
    ⟨"", [], "for=127.0.0.0,for=144.12.54.87", ""⟩ "144.12.54.87".toList
    (by decide) (by decide) (by decide)

/-- C4 counterexample: with no headers and remote address
`[2001:db8::1]:443`, the resolver returns the unbracketed host
`2001:db8::1`, not the prefix `[2001:db8::1]` that stripping after the
last colon would give. -/
theorem remote_fallback_counterexample :
    FromRequest ⟨"", [], "", "[2001:db8::1]:443"⟩ = "2001:db8::1" ∧
    ("2001:db8::1" : String) ≠ "[2001:db8::1]" :=
  ⟨by decide, by decide⟩

/-- C4 as amended: with all three header sources empty, a remote address
without a colon is returned unchanged, and a remote address of the
well-formed form `host:port` — both parts free of colons and square
brackets — yields `host`; other colon-containing forms go through
`net.SplitHostPort`'s bracket handling instead of a plain last-colon
split. -/
theorem remote_fallback_amended (r : Request)
    (h1 : r.xRealIP = "") (h2 : r.xForwardedFor = []) (h3 : r.forwarded = "") :
    (':' ∉ r.remoteAddr.toList → FromRequest r = r.remoteAddr) ∧
    (∀ h p : List Char, ':' ∉ h → ':' ∉ p → '[' ∉ h → '[' ∉ p →
      ']' ∉ h → ']' ∉ p → r.remoteAddr.toList = h ++ ':' :: p →
      FromRequest r = String.mk h) := by
  have hbranch : FromRequest r = String.mk (remoteFallback r.remoteAddr.toList) := by
    unfold FromRequest
    rw [if_pos ⟨h1, h2, h3⟩]
  constructor
  · intro hnc
    rw [hbranch]
    unfold remoteFallback
    rw [if_neg hnc]
    rfl
  · intro hh pp hch hcp hbh hbp hrh hrp heq
    rw [hbranch, heq]
    unfold remoteFallback
    rw [if_pos (List.mem_append.mpr (Or.inr (List.mem_cons_self ':' pp)))]
    simp only [splitHostPort_wellformed hh pp hch hcp hbh hbp hrh hrp]

/-- Witness for C4 as amended: the test vector `13.182.55.11:8080` has its
port stripped. -/
theorem remote_fallback_amended_witness :
    FromRequest ⟨"", [], "", "13.182.55.11:8080"⟩ = "13.182.55.11" :=
  (remote_fallback_amended ⟨"", [], "", "13.182.55.11:8080"⟩ rfl rfl rfl).2
    "13.182.55.11".toList "8080".toList (by decide) (by decide) (by decide)
    (by decide) (by decide) (by decide) (by decide)

/-- C5 counterexample: the resolver returns the empty string for a request
whose `X-Forwarded-For` header is non-empty (one private address) and
whose remote address is non-empty, contradicting the claim that an empty
result entails that all header sources and the remote address were
empty. -/
theorem empty_result_counterexample :
    FromRequest ⟨"", ["127.0.0.1"], "", "8.8.8.8"⟩ = "" ∧
    (["127.0.0.1"] : List String) ≠ [] ∧ ("8.8.8.8" : String) ≠ "" :=
  ⟨by decide, by decide, by decide⟩

/-- C5 as amended: an empty result entails that the `X-Real-IP` header was
empty and that neither the `X-Forwarded-For` scan nor the `Forwarded` scan
produced a public address; and when additionally the other two header
sources were empty, the remote address either was empty itself or
contained a colon on which host-port splitting produced an empty host. -/
theorem empty_result_amended (r : Request) (h : FromRequest r = "") :
    r.xRealIP = "" ∧
    firstPublicToken (xffTokens (r.xForwardedFor.map String.toList)) = none ∧
    forwardedScan r.forwarded.toList = none ∧
    (r.xForwardedFor = [] ∧ r.forwarded = "" →
      r.remoteAddr = "" ∨
      (':' ∈ r.remoteAddr.toList ∧ remoteFallback r.remoteAddr.toList = [])) := by
  unfold FromRequest at h
  split at h
  · rename_i hc
    obtain ⟨hr, hx, hf⟩ := hc
    refine ⟨hr, ?_, ?_, fun _ => ?_⟩
    · rw [hx]
      rfl
    · rw [hf]
      rfl
    · have hfb : remoteFallback r.remoteAddr.toList = [] := mk_eq_empty h
      by_cases hcolon : ':' ∈ r.remoteAddr.toList
      · exact Or.inr ⟨hcolon, hfb⟩
      · refine Or.inl (toList_eq_nil ?_)
        unfold remoteFallback at hfb
        rwa [if_neg hcolon] at hfb
  · rename_i hc
    split at h
    · rename_i a ha
      exact absurd (mk_eq_empty h) (firstPublicToken_ne_nil _ a ha)
    · rename_i hxffnone
      split at h
      · rename_i a ha
        exact absurd (mk_eq_empty h) (forwardedScan_ne_nil _ a ha)
      · rename_i hfwdnone
        exact ⟨h, hxffnone, hfwdnone,
          fun hrest => absurd ⟨h, hrest.1, hrest.2⟩ hc⟩

/-- Witness for C5 as amended at the bare IPv6 remote address `::1`, whose
host-port split fails and leaves the empty host. -/
theorem empty_result_amended_witness :
    ("" : String) = "" ∧
    firstPublicToken (xffTokens (([] : List String).map String.toList)) = none ∧
    forwardedScan "".toList = none ∧
    (([] : List String) = [] ∧ ("" : String) = "" →
      ("::1" : String) = "" ∨
      (':' ∈ "::1".toList ∧ remoteFallback "::1".toList = [])) :=
  empty_result_amended ⟨"", [], "", "::1"⟩ (by decide)

/-- C7: when the all-empty fallback is not taken and neither scan produces
a public address, the resolver returns the `X-Real-IP` value verbatim
(possibly the empty string). -/
theorem realip_fallback_verbatim (r : Request)
    (hne : ¬(r.xRealIP = "" ∧ r.xForwardedFor = [] ∧ r.forwarded = ""))
    (hxff : firstPublicToken (xffTokens (r.xForwardedFor.map String.toList)) = none)
    (hfwd : forwardedScan r.forwarded.toList = none) :
    FromRequest r = r.xRealIP := by
  unfold FromRequest
  rw [if_neg hne]
  simp only [hxff, hfwd]

/-- Witness for C7: a private-only `X-Forwarded-For` chain falls back to
the `X-Real-IP` value, returned even though it is itself private. -/
theorem realip_fallback_verbatim_witness :
    FromRequest ⟨"10.1.2.3", ["192.168.0.7"], "", ""⟩ = "10.1.2.3" :=
  realip_fallback_verbatim ⟨"10.1.2.3", ["192.168.0.7"], "", ""⟩
    (by simp) (by decide) (by decide)

/-- C8: the resolver is total — it always returns a string — and a
candidate that fails to parse or classifies as reserved merely disqualifies
itself: the `X-Forwarded-For` scan and the `Forwarded` scan continue with
the remaining tokens and pieces. -/
theorem scan_skips_failing_candidates :
    (∀ r : Request, ∃ s : String, FromRequest r = s) ∧
    (∀ (t : List Char) (ts : List (List Char)),
      (isPrivateAddressL t).1 = true ∨ (isPrivateAddressL t).2 = true →
      firstPublicToken (t :: ts) = firstPublicToken ts) ∧
    (∀ (b : List Char) (bs : List (List Char)),
      forwardedPiece b = none →
      (b :: bs).findSome? forwardedPiece = bs.findSome? forwardedPiece) := by
  refine ⟨fun r => ⟨FromRequest r, rfl⟩, ?_, ?_⟩
  · intro t ts h
    have hnp : isPublic t = false := by
      unfold isPublic
      rcases h with h | h <;> simp [h]
    unfold firstPublicToken
    simp only [List.find?_cons, hnp]
  · intro b bs h
    simp only [List.findSome?_cons, h]

/-- Witness for C8: an unparseable token is skipped and the scan result is
that of the remaining tokens. -/
theorem scan_skips_failing_candidates_witness :
    firstPublicToken ["nonsense".toList, "8.8.8.8".toList] =
      firstPublicToken ["8.8.8.8".toList] :=
  scan_skips_failing_candidates.2.1 "nonsense".toList ["8.8.8.8".toList]
    (by decide)

/-- C9: the resolver is deterministic — two requests with identical header
values and identical remote address resolve to identical strings.  (The
embedding is a pure function of these four inputs, mirroring that the Go
code only reads the headers and the package-level table.) -/
theorem resolver_deterministic (r₁ r₂ : Request)
    (h1 : r₁.xRealIP = r₂.xRealIP) (h2 : r₁.xForwardedFor = r₂.xForwardedFor)
    (h3 : r₁.forwarded = r₂.forwarded) (h4 : r₁.remoteAddr = r₂.remoteAddr) :
    FromRequest r₁ = FromRequest r₂ := by
  have : r₁ = r₂ := by
    cases r₁
    cases r₂
    simp_all
  rw [this]

/-- Witness for C9 at two identically-built requests. -/
theorem resolver_deterministic_witness :
    FromRequest ⟨"", ["144.12.54.87"], "", "1.2.3.4:80"⟩ =
      FromRequest ⟨"", ["144.12.54.87"], "", "1.2.3.4:80"⟩ :=
  resolver_deterministic ⟨"", ["144.12.54.87"], "", "1.2.3.4:80"⟩
    ⟨"", ["144.12.54.87"], "", "1.2.3.4:80"⟩ rfl rfl rfl rfl

/-- C10: the no-header fallback uses host-port semantics, not a plain
colon split: the bracketed `[2001:db8::1]:443` yields `2001:db8::1`, the
bare IPv6 literal `::1` yields the empty string (the split error is
discarded), and in general any colon-containing remote address yields
`net.SplitHostPort`'s host component, with the empty string on failure. -/
theorem remote_fallback_host_port_semantics :
    FromRequest ⟨"", [], "", "[2001:db8::1]:443"⟩ = "2001:db8::1" ∧
    FromRequest ⟨"", [], "", "::1"⟩ = "" ∧
    (∀ r : Request, r.xRealIP = "" → r.xForwardedFor = [] → r.forwarded = "" →
      ':' ∈ r.remoteAddr.toList →
      FromRequest r =
        String.mk (((splitHostPort r.remoteAddr.toList).map Prod.fst).getD [])) := by
  refine ⟨by decide, by decide, ?_⟩
  intro r h1 h2 h3 hc
  unfold FromRequest
  rw [if_pos ⟨h1, h2, h3⟩]
  unfold remoteFallback
  rw [if_pos hc]
  congr 1
  cases splitHostPort r.remoteAddr.toList <;> simp

/-- Witness for C10 at the remote address `10.0.0.1:80`. -/
theorem remote_fallback_host_port_semantics_witness :
    FromRequest ⟨"", [], "", "10.0.0.1:80"⟩ =
      String.mk (((splitHostPort "10.0.0.1:80".toList).map Prod.fst).getD []) :=
  remote_fallback_host_port_semantics.2.2 ⟨"", [], "", "10.0.0.1:80"⟩
    rfl rfl rfl (by decide)

end RealIP
